import Mathlib

/-!
Verification of `src/data/process_data.py` (stillwhaling): an ETL script that
reads an IWC whaling-catches spreadsheet, aggregates it, and writes a JSON
document with `metadata`, `timeline` and `byCountryYear` sections.

Shallow embedding notes:
* A raw spreadsheet row is `RawRow`; a missing (NaN) species cell is absent
  from `cells`, and pandas' NaN-skipping `sum` is modelled by reading an
  absent cell as `0`.
* `df['Nation'].map(COUNTRY_CODES)` is `codeOf`; pandas
  `groupby(['Year','Nation','CountryCode'])` drops groups with a NaN key
  (default `dropna=True`), so only rows whose nation is in the catalog
  produce a group.  Group keys come out sorted lexicographically, which
  `groupKeys` reproduces by dedup-then-insertion-sort.
* `sorted(df['Year'].unique())` is `yearsOf`, a duplicate-removing
  insertion sort.
* `find_dataset` is `findDataset` over a list of file names with
  modification times; `main`'s effect on the output path is `runProgram`,
  whose second component is the content of the output file (unchanged on
  error).
-/

/-- One raw spreadsheet row: `Year`, `Nation`, `Total`, and the species
columns that have a (non-NaN) value in this row. -/
structure RawRow where
  year : Int
  nation : String
  total : Int
  cells : List (String × Int)
deriving DecidableEq, Repr

/-- The in-memory table: the species columns present in the spreadsheet
(`df.columns` restricted to species), and the rows. -/
structure Table where
  cols : List String
  rows : List RawRow
deriving DecidableEq, Repr

/-- The fixed species catalog of the script (column name to display name). -/
def SPECIES : List (String × String) :=
  [("TBlue", "Blue Whale"),
   ("PBlue", "Pygmy Blue Whale"),
   ("Fin", "Fin Whale"),
   ("Spm", "Sperm Whale"),
   ("Hbk", "Humpback Whale"),
   ("Sei", "Sei Whale"),
   ("Bryd", "Bryde\x27s Whale"),
   ("Mi:C", "Common Minke"),
   ("Mi:A", "Antarctic Minke"),
   ("Gray", "Gray Whale"),
   ("Bhd", "Bowhead Whale"),
   ("Ri", "Right Whale"),
   ("Unsp", "Unspecified")]

/-- The fixed country-code catalog (nation name to ISO 3166-1 alpha-3). -/
def COUNTRY_CODES : List (String × String) :=
  [("Japan", "JPN"),
   ("USSR", "RUS"),
   ("Russia", "RUS"),
   ("Indonesia", "IDN"),
   ("Denmark", "DNK"),
   ("Iceland", "ISL"),
   ("Norway", "NOR"),
   ("Saint Vincent & the Grenadines", "VCT"),
   ("Korea", "KOR"),
   ("United States", "USA"),
   ("Portugal", "PRT"),
   ("Canada", "CAN")]

/-- Dictionary lookup (Python `dict` access / `Series.map`). -/
def lookupKV {β : Type} (m : List (String × β)) (k : String) : Option β :=
  match m with
  | [] => none
  | (a, b) :: rest => if k = a then some b else lookupKV rest k

/-- `COUNTRY_CODES.get(nation)`: `none` models the NaN produced by
`df['Nation'].map(COUNTRY_CODES)` for an uncatalogued nation. -/
def codeOf (n : String) : Option String := lookupKV COUNTRY_CODES n

/-- `species_cols = [col for col in SPECIES.keys() if col in df.columns]`. -/
def speciesCols (t : Table) : List String :=
  (SPECIES.map Prod.fst).filter (fun c => t.cols.contains c)

/-- Value of a species cell; an absent (NaN) cell reads as 0, matching
pandas' NaN-skipping sums. -/
def cellVal (r : RawRow) (c : String) : Int := (lookupKV r.cells c).getD 0

/-- Sum of the `Total` column over a list of rows. -/
def sumTotals (rs : List RawRow) : Int := (rs.map RawRow.total).sum

/-- Sum of one species column over a list of rows. -/
def sumCol (rs : List RawRow) (c : String) : Int :=
  (rs.map (fun r => cellVal r c)).sum

/-- `df[df['Year'] == year]`. -/
def rowsOfYear (t : Table) (y : Int) : List RawRow :=
  t.rows.filter (fun r => r.year == y)

/-- The rows of one `(Year, Nation)` group. -/
def groupRows (t : Table) (y : Int) (n : String) : List RawRow :=
  t.rows.filter (fun r => r.year == y && r.nation == n)

/-- Duplicate-removing sorted insert for years. -/
def insInt (x : Int) : List Int → List Int
  | [] => [x]
  | y :: ys =>
      if x = y then y :: ys
      else if x < y then x :: y :: ys
      else y :: insInt x ys

/-- `sorted(df['Year'].unique())`. -/
def yearsOf (t : Table) : List Int :=
  (t.rows.map RawRow.year).foldr insInt []

/-- A `groupby(['Year','Nation','CountryCode'])` key. -/
abbrev GKey := Int × String × String

/-- The group key of a row, or `none` when the nation is uncatalogued
(pandas drops NaN-keyed groups). -/
def rowKey (r : RawRow) : Option GKey :=
  (codeOf r.nation).map (fun c => (r.year, r.nation, c))

/-- Strict lexicographic order on character lists, by code point —
Python's string comparison. -/
def lexLt : List Char → List Char → Bool
  | [], [] => false
  | [], _ :: _ => true
  | _ :: _, [] => false
  | a :: as, b :: bs => decide (a.toNat < b.toNat) || (a == b && lexLt as bs)

/-- Strict lexicographic order on strings, by code point. -/
def strLtB (a b : String) : Bool := lexLt a.data b.data

/-- Lexicographic comparison of group keys, as pandas sorts groups. -/
def keyLtB (a b : GKey) : Bool :=
  decide (a.1 < b.1) ||
    (decide (a.1 = b.1) &&
      (strLtB a.2.1 b.2.1 ||
        (decide (a.2.1 = b.2.1) && strLtB a.2.2 b.2.2)))

/-- Insertion step of the key sort. -/
def insKey (x : GKey) : List GKey → List GKey
  | [] => [x]
  | y :: ys => if keyLtB x y then x :: y :: ys else y :: insKey x ys

/-- Insertion sort of group keys. -/
def sortKeys (l : List GKey) : List GKey := l.foldr insKey []

/-- First-occurrence deduplication helper. -/
def dedupAux (seen : List GKey) : List GKey → List GKey
  | [] => []
  | x :: xs =>
      if x ∈ seen then dedupAux seen xs else x :: dedupAux (x :: seen) xs

/-- First-occurrence deduplication of the key stream. -/
def dedupFirst (l : List GKey) : List GKey := dedupAux [] l

/-- The distinct group keys of `groupby(['Year','Nation','CountryCode'])`,
in sorted order; rows with an uncatalogued nation contribute none. -/
def groupKeys (t : Table) : List GKey :=
  sortKeys (dedupFirst (t.rows.filterMap rowKey))

/-- One `byCountryYear` output entry. -/
structure CYEntry where
  year : Int
  country : String
  code : String
  total : Int
  species : List (String × Int)
deriving DecidableEq, Repr

/-- The `byCountryYear` entry assembled from one group row
(lines 110-121 of the script): species with a non-positive sum are
omitted by the `row[col] > 0` filter. -/
def mkCYEntry (t : Table) : GKey → CYEntry
  | (y, n, c) =>
      { year := y
        country := n
        code := c
        total := sumTotals (groupRows t y n)
        species := (speciesCols t).filterMap (fun col =>
          if 0 < sumCol (groupRows t y n) col then
            some (col, sumCol (groupRows t y n) col)
          else none) }

/-- The `byCountryYear` list of the output document. -/
def byCountryYear (t : Table) : List CYEntry :=
  (groupKeys t).map (mkCYEntry t)

/-- One `timeline` output entry (a `species_yearly` row). -/
structure TLEntry where
  year : Int
  species : List (String × Int)
  total : Int
deriving DecidableEq, Repr

/-- The `species_yearly` row for one year (lines 86-94 of the script):
every present species column is kept, zero or not. -/
def mkTLEntry (t : Table) (y : Int) : TLEntry :=
  { year := y
    species := (speciesCols t).map (fun col => (col, sumCol (rowsOfYear t y) col))
    total := sumTotals (rowsOfYear t y) }

/-- The `timeline` list of the output document. -/
def timeline (t : Table) : List TLEntry :=
  (yearsOf t).map (mkTLEntry t)

/-- The full output document. -/
structure Output where
  years : List Int
  countries : List String
  speciesCatalog : List (String × String)
  timeline : List TLEntry
  byCountryYear : List CYEntry
deriving DecidableEq, Repr

/-- The whole in-memory transformation of `main` (lines 67-121). -/
def processTable (t : Table) : Output :=
  { years := yearsOf t
    countries := COUNTRY_CODES.map Prod.fst
    speciesCatalog := SPECIES
    timeline := timeline t
    byCountryYear := byCountryYear t }

/-! ### JSON serialization (json.dump of the output structure) -/

/-- JSON string literal. -/
def jstr (s : String) : String := "\"" ++ s ++ "\""

/-- JSON integer literal. -/
def jint (i : Int) : String := toString i

/-- JSON key/value pair. -/
def jkv (k v : String) : String := jstr k ++ ":" ++ v

/-- JSON object from serialized fields. -/
def jobj (fields : List String) : String :=
  "\x7b" ++ String.intercalate "," fields ++ "\x7d"

/-- JSON array from serialized elements. -/
def jarr (xs : List String) : String :=
  "[" ++ String.intercalate "," xs ++ "]"

/-- Serialize one timeline row, keys in the script's insertion order. -/
def serializeTL (e : TLEntry) : String :=
  jobj ([jkv "year" (jint e.year)] ++
        e.species.map (fun p => jkv p.1 (jint p.2)) ++
        [jkv "total" (jint e.total)])

/-- Serialize one `byCountryYear` entry. -/
def serializeCY (e : CYEntry) : String :=
  jobj [jkv "year" (jint e.year),
        jkv "country" (jstr e.country),
        jkv "code" (jstr e.code),
        jkv "total" (jint e.total),
        jkv "species" (jobj (e.species.map (fun p => jkv p.1 (jint p.2))))]

/-- Serialize the whole output document, fields in the script's order. -/
def serializeOutput (o : Output) : String :=
  jobj [jkv "metadata" (jobj
          [jkv "source" (jstr "IWC Total Catches Database"),
           jkv "url" (jstr "https://iwc.int/management-and-conservation/whaling/total-catches"),
           jkv "years" (jarr (o.years.map jint)),
           jkv "countries" (jarr (o.countries.map jstr)),
           jkv "species" (jobj (o.speciesCatalog.map (fun p => jkv p.1 (jstr p.2))))]),
        jkv "timeline" (jarr (o.timeline.map serializeTL)),
        jkv "byCountryYear" (jarr (o.byCountryYear.map serializeCY))]

/-! ### Locator and program run (`find_dataset` and `main`'s file effects) -/

/-- A candidate file in the downloads directory. -/
structure FileInfo where
  name : String
  mtime : Int
deriving DecidableEq, Repr

/-- Is `pat` a prefix of `s` (as character lists)? -/
def listIsPref : List Char → List Char → Bool
  | [], _ => true
  | _ :: _, [] => false
  | a :: as, b :: bs => a == b && listIsPref as bs

/-- Does `pat` occur as a contiguous substring of `s`? -/
def containsSub (pat : List Char) : List Char → Bool
  | [] => pat.isEmpty
  | c :: rest => listIsPref pat (c :: rest) || containsSub pat rest

/-- Does a file name match the glob `*catches*.xlsx`?  Since `"catches"`
contains no dot, a name matches the glob iff it ends in `".xlsx"` and
contains `"catches"`. -/
def matchesGlobL (name : String) : Bool :=
  containsSub "catches".data name.data && name.endsWith ".xlsx"

/-- Does a file name match the glob `*Catches*.xlsx`? -/
def matchesGlobU (name : String) : Bool :=
  containsSub "Catches".data name.data && name.endsWith ".xlsx"

/-- The `DatasetNotFound` message raised by `find_dataset`; it names the
expected source and the URL where the dataset can be obtained. -/
def datasetNotFoundMsg : String :=
  "No IWC catches dataset found in Downloads.\nDownload from: https://iwc.int/management-and-conservation/whaling/total-catches"

/-- `find_dataset` (lines 48-57): both globs, error if no match, else the
match with the most recent modification time (stable descending sort,
first element). -/
def findDataset (files : List FileInfo) : Except String FileInfo :=
  match files.filter (fun f => matchesGlobL f.name) ++
        files.filter (fun f => matchesGlobU f.name) with
  | [] => Except.error datasetNotFoundMsg
  | f :: fs =>
      Except.ok (fs.foldl (fun best g => if best.mtime < g.mtime then g else best) f)

/-- `main`'s effect on the output file: `prior` is the content of the
output path before the run, the second component its content after.  On
`DatasetNotFound` the error propagates before anything is written. -/
def runProgram (files : List FileInfo) (load : FileInfo → Table)
    (prior : Option String) : Except String String × Option String :=
  match findDataset files with
  | Except.error e => (Except.error e, prior)
  | Except.ok f =>
      let out := serializeOutput (processTable (load f))
      (Except.ok out, some out)

/-- The spec's two-row scenario: Japan/TBlue and Norway/Fin in 1985. -/
def scenarioTable : Table :=
  { cols := ["TBlue", "Fin"]
    rows := [{ year := 1985, nation := "Japan", total := 5, cells := [("TBlue", 2)] },
             { year := 1985, nation := "Norway", total := 5, cells := [("Fin", 3)] }] }

/-- A one-row table whose nation is not in the country-code catalog. -/
def peruTable : Table :=
  { cols := []
    rows := [{ year := 1990, nation := "Peru", total := 5, cells := [] }] }

/-! ### Lemmas about the year sort -/

theorem mem_insInt (z x : Int) (l : List Int) : z ∈ insInt x l ↔ z = x ∨ z ∈ l := by
  induction l with
  | nil => simp [insInt]
  | cons y ys ih =>
    rw [insInt]
    by_cases h1 : x = y
    · rw [if_pos h1]
      subst h1
      simp only [List.mem_cons]
      tauto
    · rw [if_neg h1]
      by_cases h2 : x < y
      · rw [if_pos h2]
        simp only [List.mem_cons]
      · rw [if_neg h2]
        simp only [List.mem_cons, ih]
        tauto

theorem pairwise_insInt (x : Int) (l : List Int) (h : l.Pairwise (· < ·)) :
    (insInt x l).Pairwise (· < ·) := by
  induction l with
  | nil => simp [insInt]
  | cons y ys ih =>
    rw [List.pairwise_cons] at h
    obtain ⟨hy, hys⟩ := h
    by_cases h1 : x = y
    · subst h1
      simp only [insInt, if_pos rfl]
      exact List.pairwise_cons.mpr ⟨hy, hys⟩
    · rw [insInt, if_neg h1]
      by_cases h2 : x < y
      · rw [if_pos h2]
        refine List.pairwise_cons.mpr ⟨?_, List.pairwise_cons.mpr ⟨hy, hys⟩⟩
        intro b hb
        rcases List.mem_cons.mp hb with rfl | hb
        · exact h2
        · exact lt_trans h2 (hy b hb)
      · rw [if_neg h2]
        refine List.pairwise_cons.mpr ⟨?_, ih hys⟩
        intro b hb
        rcases (mem_insInt b x ys).mp hb with rfl | hb
        · omega
        · exact hy b hb

theorem pairwise_yearsOf (t : Table) : (yearsOf t).Pairwise (· < ·) := by
  unfold yearsOf
  induction t.rows.map RawRow.year with
  | nil => simp
  | cons a as ih => exact pairwise_insInt a _ ih

theorem mem_yearsOf {t : Table} {y : Int} : y ∈ yearsOf t ↔ ∃ r ∈ t.rows, r.year = y := by
  unfold yearsOf
  have : ∀ l : List Int, y ∈ l.foldr insInt [] ↔ y ∈ l := by
    intro l
    induction l with
    | nil => simp
    | cons a as ih => rw [List.foldr_cons, mem_insInt, ih, List.mem_cons]
  rw [this, List.mem_map]

theorem nodup_yearsOf (t : Table) : (yearsOf t).Nodup :=
  (pairwise_yearsOf t).imp (fun h => ne_of_lt h)

/-! ### Lemmas about the group-key sort and dedup -/

theorem perm_insKey (x : GKey) (l : List GKey) : (insKey x l).Perm (x :: l) := by
  induction l with
  | nil => exact List.Perm.refl _
  | cons y ys ih =>
    rw [insKey]
    by_cases h : keyLtB x y
    · rw [if_pos h]
    · rw [if_neg h]
      exact (ih.cons y).trans (List.Perm.swap x y ys)

theorem perm_sortKeys (l : List GKey) : (sortKeys l).Perm l := by
  induction l with
  | nil => exact List.Perm.refl _
  | cons a as ih =>
    unfold sortKeys at *
    rw [List.foldr_cons]
    exact (perm_insKey a _).trans (ih.cons a)

theorem mem_dedupAux (z : GKey) (l : List GKey) :
    ∀ seen : List GKey, z ∈ dedupAux seen l ↔ z ∈ l ∧ z ∉ seen := by
  induction l with
  | nil => intro seen; simp [dedupAux]
  | cons x xs ih =>
    intro seen
    rw [dedupAux]
    by_cases hx : x ∈ seen
    · rw [if_pos hx, ih]
      constructor
      · rintro ⟨h1, h2⟩; exact ⟨List.mem_cons_of_mem _ h1, h2⟩
      · rintro ⟨h1, h2⟩
        rcases List.mem_cons.mp h1 with rfl | h1
        · exact absurd hx h2
        · exact ⟨h1, h2⟩
    · rw [if_neg hx]
      simp only [List.mem_cons, ih (x :: seen)]
      constructor
      · rintro (rfl | ⟨h1, h2⟩)
        · exact ⟨Or.inl rfl, hx⟩
        · exact ⟨Or.inr h1, fun hz => h2 (Or.inr hz)⟩
      · rintro ⟨rfl | h1, h2⟩
        · exact Or.inl rfl
        · by_cases hzx : z = x
          · exact Or.inl hzx
          · exact Or.inr ⟨h1, fun hz => hz.elim hzx h2⟩

theorem nodup_dedupAux (l : List GKey) : ∀ seen : List GKey, (dedupAux seen l).Nodup := by
  induction l with
  | nil => intro seen; simp [dedupAux]
  | cons x xs ih =>
    intro seen
    rw [dedupAux]
    by_cases hx : x ∈ seen
    · rw [if_pos hx]; exact ih seen
    · rw [if_neg hx]
      refine List.nodup_cons.mpr ⟨?_, ih (x :: seen)⟩
      intro hmem
      exact ((mem_dedupAux x xs (x :: seen)).mp hmem).2 (List.mem_cons_self x seen)

theorem mem_groupKeys {t : Table} {k : GKey} :
    k ∈ groupKeys t ↔ ∃ r ∈ t.rows, rowKey r = some k := by
  unfold groupKeys dedupFirst
  rw [(perm_sortKeys _).mem_iff, mem_dedupAux]
  simp [List.mem_filterMap]

theorem nodup_groupKeys (t : Table) : (groupKeys t).Nodup := by
  unfold groupKeys dedupFirst
  exact ((perm_sortKeys _).nodup_iff).mpr (nodup_dedupAux _ [])

theorem codeOf_groupKeys {t : Table} {k : GKey} (h : k ∈ groupKeys t) :
    codeOf k.2.1 = some k.2.2 := by
  obtain ⟨r, _, hk⟩ := mem_groupKeys.mp h
  rw [rowKey, Option.map_eq_some'] at hk
  obtain ⟨c, hc, rfl⟩ := hk
  exact hc

theorem row_mem_groupKeys {t : Table} {r : RawRow} {c : String}
    (hr : r ∈ t.rows) (hc : codeOf r.nation = some c) :
    (r.year, r.nation, c) ∈ groupKeys t :=
  mem_groupKeys.mpr ⟨r, hr, by rw [rowKey, hc]; rfl⟩

/-! ### Generic list helpers -/

theorem filter_beq_nil {α : Type} [BEq α] [LawfulBEq α] {a : α} {l : List α} (ha : a ∉ l) :
    l.filter (fun x => x == a) = [] := by
  induction l with
  | nil => rfl
  | cons x xs ih =>
    have hxa : (x == a) = false := by
      refine beq_eq_false_iff_ne.mpr ?_
      intro h
      exact ha (by rw [← h]; exact List.mem_cons_self x xs)
    rw [List.filter_cons, hxa]
    simp only [Bool.false_eq_true, if_false]
    exact ih (fun h => ha (List.mem_cons_of_mem x h))

theorem filter_beq_single {α : Type} [BEq α] [LawfulBEq α] {a : α} {l : List α}
    (hn : l.Nodup) (ha : a ∈ l) : l.filter (fun x => x == a) = [a] := by
  induction l with
  | nil => cases ha
  | cons x xs ih =>
    rw [List.nodup_cons] at hn
    rw [List.filter_cons]
    rcases List.mem_cons.mp ha with rfl | hmem
    · rw [beq_self_eq_true]
      simp only [if_true]
      rw [filter_beq_nil hn.1]
    · have hxa : (x == a) = false :=
        beq_eq_false_iff_ne.mpr (fun h => hn.1 (by rw [h]; exact hmem))
      rw [hxa]
      simp only [Bool.false_eq_true, if_false]
      exact ih hn.2 hmem

theorem sum_map_add {α : Type} (l : List α) (f g : α → Int) :
    (l.map (fun a => f a + g a)).sum = (l.map f).sum + (l.map g).sum := by
  induction l with
  | nil => simp
  | cons x xs ih => simp only [List.map_cons, List.sum_cons, ih]; ring

theorem sum_if_zero {α : Type} [BEq α] [LawfulBEq α] {a : α} (v : Int) {l : List α}
    (ha : a ∉ l) : (l.map (fun n => if a == n then v else 0)).sum = 0 := by
  induction l with
  | nil => rfl
  | cons x xs ih =>
    have hax : (a == x) = false :=
      beq_eq_false_iff_ne.mpr (fun h => ha (by rw [h]; exact List.mem_cons_self x xs))
    rw [List.map_cons, List.sum_cons, hax]
    simp only [Bool.false_eq_true, if_false, zero_add]
    exact ih (fun h => ha (List.mem_cons_of_mem x h))

theorem sum_if_single {α : Type} [BEq α] [LawfulBEq α] {a : α} (v : Int) {l : List α}
    (hn : l.Nodup) (ha : a ∈ l) :
    (l.map (fun n => if a == n then v else 0)).sum = v := by
  induction l with
  | nil => cases ha
  | cons x xs ih =>
    rw [List.nodup_cons] at hn
    rw [List.map_cons, List.sum_cons]
    rcases List.mem_cons.mp ha with rfl | hmem
    · rw [beq_self_eq_true]
      simp only [if_true]
      rw [sum_if_zero v hn.1, add_zero]
    · have hax : (a == x) = false :=
        beq_eq_false_iff_ne.mpr (fun h => hn.1 (by rw [← h]; exact hmem))
      rw [hax]
      simp only [Bool.false_eq_true, if_false, zero_add]
      exact ih hn.2 hmem

/-! ### Accessor lemmas for the assembled entries -/

theorem mkCYEntry_year (t : Table) (k : GKey) : (mkCYEntry t k).year = k.1 := by
  rcases k with ⟨y, n, c⟩; rfl

theorem mkCYEntry_country (t : Table) (k : GKey) : (mkCYEntry t k).country = k.2.1 := by
  rcases k with ⟨y, n, c⟩; rfl

theorem mkCYEntry_code (t : Table) (k : GKey) : (mkCYEntry t k).code = k.2.2 := by
  rcases k with ⟨y, n, c⟩; rfl

theorem mkCYEntry_total (t : Table) (k : GKey) :
    (mkCYEntry t k).total = sumTotals (groupRows t k.1 k.2.1) := by
  rcases k with ⟨y, n, c⟩; rfl

theorem groupRows_eq (t : Table) (y : Int) (n : String) :
    groupRows t y n = (rowsOfYear t y).filter (fun x => x.nation == n) := by
  unfold groupRows rowsOfYear
  rw [List.filter_filter]
  exact List.filter_congr (fun x _ => Bool.and_comm _ _)

/-! ### The partition of a year's rows by nation -/

theorem sum_over_nations (ns : List String) (P : List RawRow) (hn : ns.Nodup)
    (hcov : ∀ r ∈ P, r.nation ∈ ns) :
    (ns.map (fun n => sumTotals (P.filter (fun x => x.nation == n)))).sum = sumTotals P := by
  induction P with
  | nil =>
    refine List.sum_eq_zero (fun x hx => ?_)
    obtain ⟨n, _, rfl⟩ := List.mem_map.mp hx
    rfl
  | cons r P ih =>
    have hstep : ∀ n : String, sumTotals ((r :: P).filter (fun x => x.nation == n)) =
        (if r.nation == n then r.total else 0) +
          sumTotals (P.filter (fun x => x.nation == n)) := by
      intro n
      rw [List.filter_cons]
      by_cases h : (r.nation == n) = true
      · simp [h, sumTotals]
      · simp [h]
    rw [List.map_congr_left (fun n _ => hstep n), sum_map_add]
    rw [ih (fun x hx => hcov x (List.mem_cons_of_mem r hx))]
    rw [sum_if_single r.total hn (hcov r (List.mem_cons_self r P))]
    simp [sumTotals]

/-! ### The filtered views of `timeline` and `byCountryYear` -/

theorem timeline_filter_y (t : Table) (y : Int) (hy : ∃ r ∈ t.rows, r.year = y) :
    (timeline t).filter (fun e => e.year == y) = [mkTLEntry t y] := by
  unfold timeline
  rw [List.filter_map]
  have hcomp : ((fun (e : TLEntry) => e.year == y) ∘ mkTLEntry t) = (fun x => x == y) := rfl
  rw [hcomp, filter_beq_single (nodup_yearsOf t) (mem_yearsOf.mpr hy)]
  rfl

theorem byCountryYear_filter_pair (t : Table) (y : Int) (n c : String)
    (hex : ∃ r ∈ t.rows, r.year = y ∧ r.nation = n) (hc : codeOf n = some c) :
    (byCountryYear t).filter (fun e => e.year == y && e.country == n)
      = [mkCYEntry t (y, n, c)] := by
  unfold byCountryYear
  rw [List.filter_map]
  have hcong : (groupKeys t).filter ((fun e => e.year == y && e.country == n) ∘ mkCYEntry t)
      = (groupKeys t).filter (fun k => k == (y, n, c)) := by
    apply List.filter_congr
    intro k hk
    have hck := codeOf_groupKeys hk
    rcases k with ⟨ky, kn, kc⟩
    rw [Bool.eq_iff_iff]
    simp only [Function.comp_apply, mkCYEntry_year, mkCYEntry_country, Bool.and_eq_true,
      beq_iff_eq, Prod.mk.injEq]
    constructor
    · rintro ⟨rfl, rfl⟩
      exact ⟨rfl, rfl, Option.some.inj (hck.symm.trans hc)⟩
    · rintro ⟨h1, h2, h3⟩
      exact ⟨h1, h2⟩
  rw [hcong]
  have hky : (y, n, c) ∈ groupKeys t := by
    obtain ⟨r, hr, hy, hn⟩ := hex
    subst hy; subst hn
    exact row_mem_groupKeys hr hc
  rw [filter_beq_single (nodup_groupKeys t) hky]
  rfl

theorem byCountryYear_filter_year (t : Table) (y : Int) :
    (byCountryYear t).filter (fun e => e.year == y)
      = ((groupKeys t).filter (fun k => k.1 == y)).map (mkCYEntry t) := by
  unfold byCountryYear
  rw [List.filter_map]
  congr 1

theorem lookupKV_mem_values {β : Type} (m : List (String × β)) (k : String) (v : β)
    (h : lookupKV m k = some v) : v ∈ m.map Prod.snd := by
  induction m with
  | nil => cases h
  | cons p rest ih =>
    rcases p with ⟨a, b⟩
    rw [lookupKV] at h
    by_cases hk : k = a
    · rw [if_pos hk] at h
      rw [List.map_cons]
      exact (Option.some.inj h) ▸ List.mem_cons_self b _
    · rw [if_neg hk] at h
      exact List.mem_cons_of_mem _ (ih h)

/-! ### Claim C1 -/

/-- C1 counterexample: the pair (1990, "Peru") occurs in the raw input of
`peruTable`, yet `byCountryYear` contains no entry for it at all — the
groupby key `CountryCode` is NaN for an uncatalogued nation and pandas
drops NaN-keyed groups, so "exactly one entry" fails. -/
theorem c1_uncatalogued_pair_has_no_entry :
    (∃ r ∈ peruTable.rows, r.year = 1990 ∧ r.nation = "Peru") ∧
      ((byCountryYear peruTable).filter
        (fun e => e.year == 1990 && e.country == "Peru")).length = 0 := by
  decide

/-- C1 (amended: restricted to pairs whose nation is a key of the
country-code catalog): for every (year, nation) pair in the raw input with
a catalogued nation, `byCountryYear` has exactly one entry for the pair,
and its `total` is the sum of `Total` over the rows of that pair. -/
theorem c1_unique_entry_with_total (t : Table) (y : Int) (n c : String)
    (hex : ∃ r ∈ t.rows, r.year = y ∧ r.nation = n) (hc : codeOf n = some c) :
    ((byCountryYear t).filter (fun e => e.year == y && e.country == n)).map CYEntry.total
      = [((t.rows.filter (fun r => r.year == y && r.nation == n)).map RawRow.total).sum] := by
  rw [byCountryYear_filter_pair t y n c hex hc]
  rfl

/-- Witness for C1 at the scenario table. -/
theorem c1_unique_entry_with_total_witness :
    ((byCountryYear scenarioTable).filter
        (fun e => e.year == 1985 && e.country == "Japan")).map CYEntry.total
      = [((scenarioTable.rows.filter
            (fun r => r.year == 1985 && r.nation == "Japan")).map RawRow.total).sum] :=
  c1_unique_entry_with_total scenarioTable 1985 "Japan" "JPN" (by decide) (by decide)

/-! ### Claim C2 -/

/-- C2 counterexample: on `peruTable` the timeline total for 1990 is 5 but
the `byCountryYear` entries of 1990 sum to 0 (there are none), because the
groupby dropped the uncatalogued nation's rows. -/
theorem c2_timeline_exceeds_byCountryYear_sum :
    ((timeline peruTable).filter (fun e => e.year == 1990)).map TLEntry.total = [5] ∧
      (((byCountryYear peruTable).filter (fun e => e.year == 1990)).map CYEntry.total).sum
        = 0 := by
  decide

/-- C2 (amended: holds provided every row's nation is a key of the
country-code catalog): the timeline total of a year present in the input
equals the sum of the `total` fields of that year's `byCountryYear`
entries. -/
theorem c2_timeline_total_eq_byCountryYear_sum (t : Table) (y : Int)
    (hall : ∀ r ∈ t.rows, (codeOf r.nation).isSome)
    (hy : ∃ r ∈ t.rows, r.year = y) :
    ((timeline t).filter (fun e => e.year == y)).map TLEntry.total
      = [(((byCountryYear t).filter (fun e => e.year == y)).map CYEntry.total).sum] := by
  rw [timeline_filter_y t y hy, byCountryYear_filter_year t y, List.map_map]
  simp only [List.map_cons, List.map_nil]
  congr 1
  show sumTotals (rowsOfYear t y)
      = (((groupKeys t).filter (fun k => k.1 == y)).map (CYEntry.total ∘ mkCYEntry t)).sum
  have h2 : ((groupKeys t).filter (fun k => k.1 == y)).map (CYEntry.total ∘ mkCYEntry t)
      = (((groupKeys t).filter (fun k => k.1 == y)).map (fun k => k.2.1)).map
          (fun n => sumTotals ((rowsOfYear t y).filter (fun x => x.nation == n))) := by
    rw [List.map_map]
    apply List.map_congr_left
    intro k hk
    have hky : k.1 = y := eq_of_beq (List.mem_filter.mp hk).2
    simp only [Function.comp_apply]
    rw [mkCYEntry_total, hky, groupRows_eq]
  rw [h2]
  refine (sum_over_nations _ _ ?_ ?_).symm
  · refine List.Nodup.map_on ?_ ((nodup_groupKeys t).filter _)
    intro k1 hk1 k2 hk2 heq
    have h1y : k1.1 = y := eq_of_beq (List.mem_filter.mp hk1).2
    have h2y : k2.1 = y := eq_of_beq (List.mem_filter.mp hk2).2
    have hc1 := codeOf_groupKeys (List.mem_filter.mp hk1).1
    have hc2 := codeOf_groupKeys (List.mem_filter.mp hk2).1
    rcases k1 with ⟨a1, b1, c1⟩
    rcases k2 with ⟨a2, b2, c2⟩
    have hb : b1 = b2 := heq
    subst hb
    have ha : a1 = a2 := h1y.trans h2y.symm
    have hcc : c1 = c2 := Option.some.inj (hc1.symm.trans hc2)
    rw [ha, hcc]
  · intro r hr
    have hr' : r ∈ t.rows.filter (fun x => x.year == y) := hr
    have hrr : r ∈ t.rows := (List.mem_filter.mp hr').1
    have hry : r.year = y := eq_of_beq (List.mem_filter.mp hr').2
    obtain ⟨c, hc⟩ := Option.isSome_iff_exists.mp (hall r hrr)
    have hmem : (r.year, r.nation, c) ∈ (groupKeys t).filter (fun k => k.1 == y) :=
      List.mem_filter.mpr ⟨row_mem_groupKeys hrr hc, beq_iff_eq.mpr hry⟩
    exact List.mem_map.mpr ⟨(r.year, r.nation, c), hmem, rfl⟩

/-- Witness for C2 (amended) at the scenario table. -/
theorem c2_timeline_total_eq_byCountryYear_sum_witness :
    ((timeline scenarioTable).filter (fun e => e.year == 1985)).map TLEntry.total
      = [(((byCountryYear scenarioTable).filter
            (fun e => e.year == 1985)).map CYEntry.total).sum] :=
  c2_timeline_total_eq_byCountryYear_sum scenarioTable 1985 (by decide) (by decide)

/-! ### Claim C3 -/

/-- C3 counterexample: on `peruTable` the year 1990 is in `metadata.years`
but `byCountryYear` is empty, so no `byCountryYear` entry carries it. -/
theorem c3_year_missing_from_byCountryYear :
    1990 ∈ (processTable peruTable).years ∧ (processTable peruTable).byCountryYear = [] := by
  decide

/-- C3 (amended): every year of `metadata.years` appears in at least one
timeline entry; it appears in at least one `byCountryYear` entry provided
some row of that year has a catalogued nation. -/
theorem c3_years_covered (t : Table) (y : Int) (hy : y ∈ (processTable t).years) :
    (∃ e ∈ (processTable t).timeline, e.year = y) ∧
      ((∃ r ∈ t.rows, r.year = y ∧ (codeOf r.nation).isSome) →
        ∃ e ∈ (processTable t).byCountryYear, e.year = y) := by
  constructor
  · have hy' : y ∈ yearsOf t := hy
    exact ⟨mkTLEntry t y, List.mem_map_of_mem _ hy', rfl⟩
  · rintro ⟨r, hr, hyr, hcs⟩
    obtain ⟨c, hc⟩ := Option.isSome_iff_exists.mp hcs
    exact ⟨mkCYEntry t (r.year, r.nation, c),
      List.mem_map_of_mem _ (row_mem_groupKeys hr hc),
      by rw [mkCYEntry_year]; exact hyr⟩

/-- Witness for C3 (amended) at the scenario table. -/
theorem c3_years_covered_witness :
    (∃ e ∈ (processTable scenarioTable).timeline, e.year = 1985) ∧
      ((∃ r ∈ scenarioTable.rows, r.year = 1985 ∧ (codeOf r.nation).isSome) →
        ∃ e ∈ (processTable scenarioTable).byCountryYear, e.year = 1985) :=
  c3_years_covered scenarioTable 1985 (by decide)

/-! ### Claim C4 -/

/-- C4: on the spec's two-row scenario the program produces exactly the
expected timeline and `byCountryYear` entries (Japan/JPN and Norway/NOR,
each with only its own nonzero species). -/
theorem c4_scenario_output :
    (processTable scenarioTable).timeline =
        [{ year := 1985, species := [("TBlue", 2), ("Fin", 3)], total := 10 }] ∧
      (processTable scenarioTable).byCountryYear =
        [{ year := 1985, country := "Japan", code := "JPN", total := 5,
           species := [("TBlue", 2)] },
         { year := 1985, country := "Norway", code := "NOR", total := 5,
           species := [("Fin", 3)] }] := by
  decide

/-! ### Claim C5 -/

/-- C5: the timeline entry of a year present in the input is unique and its
`total` is the sum of `Total` over the raw rows of that year. -/
theorem c5_timeline_total_eq_raw_sum (t : Table) (y : Int)
    (hy : ∃ r ∈ t.rows, r.year = y) :
    ((timeline t).filter (fun e => e.year == y)).map TLEntry.total
      = [((t.rows.filter (fun r => r.year == y)).map RawRow.total).sum] := by
  rw [timeline_filter_y t y hy]
  rfl

/-- Witness for C5 at the scenario table. -/
theorem c5_timeline_total_eq_raw_sum_witness :
    ((timeline scenarioTable).filter (fun e => e.year == 1985)).map TLEntry.total
      = [((scenarioTable.rows.filter (fun r => r.year == 1985)).map RawRow.total).sum] :=
  c5_timeline_total_eq_raw_sum scenarioTable 1985 (by decide)

/-! ### Claim C6 -/

/-- C6: no `byCountryYear` species sub-mapping carries a zero value — the
`row[col] > 0` filter omits a species whose group sum is zero instead of
emitting it with value 0. -/
theorem c6_species_values_nonzero (t : Table) (e : CYEntry) (he : e ∈ byCountryYear t) :
    ∀ p ∈ e.species, p.2 ≠ 0 := by
  obtain ⟨k, hk, rfl⟩ := List.mem_map.mp he
  rcases k with ⟨y, n, c⟩
  intro p hp
  have hp' : p ∈ (speciesCols t).filterMap (fun col =>
      if 0 < sumCol (groupRows t y n) col then some (col, sumCol (groupRows t y n) col)
      else none) := hp
  obtain ⟨col, hcol, hpc⟩ := List.mem_filterMap.mp hp'
  by_cases h : 0 < sumCol (groupRows t y n) col
  · rw [if_pos h] at hpc
    have hpe := Option.some.inj hpc
    subst hpe
    exact (by omega : sumCol (groupRows t y n) col ≠ 0)
  · rw [if_neg h] at hpc
    exact Option.noConfusion hpc

/-- Witness for C6 at the scenario table's Japan entry. -/
theorem c6_species_values_nonzero_witness : ((("TBlue", 2) : String × Int)).2 ≠ 0 :=
  c6_species_values_nonzero scenarioTable
    { year := 1985, country := "Japan", code := "JPN", total := 5, species := [("TBlue", 2)] }
    (by decide) ("TBlue", 2) (by decide)

/-! ### Claim C7 -/

/-- C7: when no file in the downloads directory matches either glob, the
program stops with the `DatasetNotFound` error — whose message names the
IWC source and contains the download URL — and the output path keeps its
prior content (nothing is written). -/
theorem c7_dataset_not_found (files : List FileInfo) (load : FileInfo → Table)
    (prior : Option String)
    (h : ∀ f ∈ files, matchesGlobL f.name = false ∧ matchesGlobU f.name = false) :
    runProgram files load prior = (Except.error datasetNotFoundMsg, prior) ∧
      containsSub "https://iwc.int/management-and-conservation/whaling/total-catches".data
        datasetNotFoundMsg.data = true := by
  have h1 : files.filter (fun f => matchesGlobL f.name) = [] :=
    List.filter_eq_nil_iff.mpr (fun f hf => by simp [(h f hf).1])
  have h2 : files.filter (fun f => matchesGlobU f.name) = [] :=
    List.filter_eq_nil_iff.mpr (fun f hf => by simp [(h f hf).2])
  have hfd : findDataset files = Except.error datasetNotFoundMsg := by
    unfold findDataset
    rw [h1, h2]
    rfl
  refine ⟨?_, by decide⟩
  unfold runProgram
  rw [hfd]

/-- Witness for C7: an empty downloads directory. -/
theorem c7_dataset_not_found_witness :
    runProgram [] (fun _ => scenarioTable) none = (Except.error datasetNotFoundMsg, none) ∧
      containsSub "https://iwc.int/management-and-conservation/whaling/total-catches".data
        datasetNotFoundMsg.data = true :=
  c7_dataset_not_found [] (fun _ => scenarioTable) none (by decide)

/-! ### Claim C8 -/

/-- C8: `metadata.years` is strictly ascending and carries each distinct
input year exactly once (membership iff the year occurs in a row, and
multiplicity at most one). -/
theorem c8_metadata_years_sorted_unique (t : Table) (y : Int) :
    (processTable t).years.Pairwise (· < ·) ∧
      (processTable t).years.count y ≤ 1 ∧
      (y ∈ (processTable t).years ↔ ∃ r ∈ t.rows, r.year = y) :=
  ⟨pairwise_yearsOf t, List.nodup_iff_count_le_one.mp (nodup_yearsOf t) y, mem_yearsOf⟩

/-! ### Claim C9 -/

/-- C9: the run is deterministic — two runs over the same files whose loads
agree produce identical results, including the serialized output bytes.
The embedding is a pure function of its inputs, mirroring the script,
which has no nondeterministic constructs (dict order is insertion order,
groupby and sorts are stable, json.dump is deterministic). -/
theorem c9_run_deterministic (files : List FileInfo) (load1 load2 : FileInfo → Table)
    (prior : Option String) (h : ∀ f, load1 f = load2 f) :
    runProgram files load1 prior = runProgram files load2 prior := by
  rw [funext h]

/-- Witness for C9 on a concrete run. -/
theorem c9_run_deterministic_witness :
    runProgram [] (fun _ => scenarioTable) none = runProgram [] (fun _ => scenarioTable) none :=
  c9_run_deterministic [] (fun _ => scenarioTable) (fun _ => scenarioTable) none (fun _ => rfl)

/-! ### Claim C10 -/

/-- C10: every `byCountryYear` entry's `code` is the catalog value of its
nation (in particular non-null and a 3-letter catalog value); hence a row
whose nation is not a catalog key contributes to no entry. -/
theorem c10_code_in_catalog (t : Table) (e : CYEntry) (he : e ∈ byCountryYear t) :
    codeOf e.country = some e.code ∧ e.code ∈ COUNTRY_CODES.map Prod.snd := by
  obtain ⟨k, hk, rfl⟩ := List.mem_map.mp he
  have hc := codeOf_groupKeys hk
  rw [mkCYEntry_country, mkCYEntry_code]
  exact ⟨hc, lookupKV_mem_values _ _ _ hc⟩

/-- Witness for C10 at the scenario table's Japan entry. -/
theorem c10_code_in_catalog_witness :
    codeOf "Japan" = some "JPN" ∧ "JPN" ∈ COUNTRY_CODES.map Prod.snd :=
  c10_code_in_catalog scenarioTable
    { year := 1985, country := "Japan", code := "JPN", total := 5, species := [("TBlue", 2)] }
    (by decide)
